import Mathlib

/-!
Shallow embedding of the gdext-egui bridge core (src/lib.rs).

The embedding models the bridge controller (`EguiBridge`), its per-tick entry
point `on_process`, the frame-output handler `handle_output` (viewport
reconciliation, texture deltas, canvas-item pool bookkeeping, painting), the
viewport lifecycle helpers `spawn_viewport` / `despawn_viewport`, and the
per-viewport input/focus control (`EguiViewportIoBridge.on_notification`).

Host-engine objects (controls, windows, canvas items, images, textures) are
modelled as opaque `Nat` handles; calls into the host are recorded as events in
a trace.  External black boxes (egui frame production, `ViewportBuilder.patch`,
tessellation, display queries) are supplied as oracle parameters, matching the
spec boundary.  Fallible host calls and Rust `unwrap` / `unimplemented!` are
modelled with `Option` (`none` = panic).  Timestamps (`Instant`) are `Nat`.
-/

namespace GdextEgui

/-- Stable viewport identifier (egui `ViewportId`). -/
abbrev ViewportId := Nat

/-- The distinguished root viewport id (`ViewportId::ROOT`). -/
def ROOT : ViewportId := 0

/-- egui texture id. -/
abbrev TextureId := Nat

/-- Opaque viewport window configuration (egui `ViewportBuilder`). -/
abbrev Builder := Nat

/-- Opaque window command (egui `ViewportCommand`); `apply_commands` maps every
command to a no-op in the source. -/
abbrev Cmd := Nat

/-- Opaque screen rectangle value. -/
abbrev ERect := Nat

/-! Association-list maps with `Nat` keys model the `HashMap`s of the source. -/

/-- Map lookup (`HashMap::get`). -/
def alookup {β : Type} : List (Nat × β) → Nat → Option β
  | [], _ => none
  | e :: rest, k => if e.1 = k then some e.2 else alookup rest k

/-- Map removal (`HashMap::remove`). -/
def aerase {β : Type} : List (Nat × β) → Nat → List (Nat × β)
  | [], _ => []
  | e :: rest, k => if e.1 = k then aerase rest k else e :: aerase rest k

/-- Map insert-or-replace (`HashMap::insert`). -/
def ainsert {β : Type} (m : List (Nat × β)) (k : Nat) (v : β) : List (Nat × β) :=
  (k, v) :: aerase m k

/-- In-place mutation of the entry at a key (`HashMap::get_mut` write-back). -/
def aupdate {β : Type} : List (Nat × β) → Nat → (β → β) → List (Nat × β)
  | [], _, _ => []
  | e :: rest, k, f => (if e.1 = k then (k, f e.2) else e) :: aupdate rest k f

/-- Per-viewport input snapshot (egui `ViewportInfo`, the shared
`Arc<Mutex<ViewportInfo>>`). -/
structure ViewportInfo where
  focused : Option Bool := none
  inner_rect : Option ERect := none
  native_pixels_per_point : Option Nat := none
deriving DecidableEq

/-- Per-viewport state of the bridge (`ViewportContext`). -/
structure ViewportContext where
  parent_id : Option ViewportId
  control : Nat
  window : Option Nat
  window_setup : Builder
  input : ViewportInfo
deriving DecidableEq

/-- Host image pixel buffer (`Gd<engine::Image>`), row-major flat data. -/
structure Image where
  w : Nat
  h : Nat
  data : List Nat
deriving DecidableEq

/-- Copy of `src` into `dst` at offset `(dx, dy)` (`Image::blit_rect` with a
full source rectangle), clipped to the destination bounds. -/
def blit_rect (dst src : Image) (dx dy : Nat) : Image :=
  { dst with
    data := (List.range (dst.w * dst.h)).map fun i =>
      let x := i % dst.w
      let y := i / dst.w
      if dx ≤ x ∧ x < dx + src.w ∧ dy ≤ y ∧ y < dy + src.h then
        src.data.getD ((y - dy) * src.w + (x - dx)) 0
      else
        dst.data.getD i 0 }

/-- Texture registry entry (`TextureDescriptor`): the mutable source image and
the sampleable texture handle derived from it. -/
structure TextureDescriptor where
  gd_src_img : Image
  gd_tex : Nat
deriving DecidableEq

abbrev VpMap := List (ViewportId × ViewportContext)
abbrev TexMap := List (TextureId × TextureDescriptor)
abbrev Sched := List (ViewportId × Nat)

/-- The egui `RawInput` assembled once per processed tick. -/
structure RawInput where
  viewport_id : ViewportId
  viewports : List (ViewportId × ViewportInfo)
  screen_rect : Option ERect
  max_texture_side : Nat
  time : Nat
  predicted_dt : Nat
  events : List Nat
  focused : Bool
deriving DecidableEq

/-- Trace of calls into the host engine and the egui context. -/
inductive BridgeEvent where
  | spawnControl (id : ViewportId)
  | spawnWindow (id : ViewportId)
  | freeControl (id : ViewportId)
  | freeWindow (id : ViewportId)
  | runDeferredCb (id : ViewportId)
  | queueRedraw (id : ViewportId)
  | resizeRenderTarget
  | errorCreateImage (id : TextureId)
  | errorCreateTexture (id : TextureId)
  | warnTextureNotFound (id : TextureId)
  | warnMissingTexture (id : TextureId)
  | createCanvasItem (rid : Nat)
  | freeCanvasItem (rid : Nat)
  | clearCanvasItem (rid : Nat)
  | drawMesh (rid : Nat) (tex : TextureId)
  | endFrame
  | beginFrame (raw : RawInput)
deriving DecidableEq

/-- Whether an event is the start of an egui frame. -/
def is_begin_frame : BridgeEvent → Bool
  | .beginFrame _ => true
  | _ => false

/-- Whether an event is the end of an egui frame. -/
def is_end_frame : BridgeEvent → Bool
  | .endFrame => true
  | _ => false

/-- Whether an event is a viewport spawn or despawn host call. -/
def is_lifecycle_event : BridgeEvent → Bool
  | .spawnControl _ => true
  | .spawnWindow _ => true
  | .freeControl _ => true
  | .freeWindow _ => true
  | _ => false

/-- Whether an event frees a host window. -/
def is_free_window : BridgeEvent → Bool
  | .freeWindow _ => true
  | _ => false

/-- One entry of `FullOutput.textures_delta.set`, together with the outcomes of
the two fallible host constructors used while applying it
(`Image::create_from_data`, `ImageTexture::create_from_image`). -/
structure SetDelta where
  id : TextureId
  image : Image
  pos : Option (Nat × Nat)
  imgOk : Bool
  texOk : Bool
deriving DecidableEq

/-- One entry of `FullOutput.viewport_output`. -/
structure ViewportOutput where
  parent : ViewportId
  builder : Builder
  has_ui_cb : Bool
deriving DecidableEq

/-- The parts of egui `FullOutput` the bridge consumes. -/
structure FullOutput where
  viewport_output : List (ViewportId × ViewportOutput)
  textures_set : List SetDelta
  textures_free : List TextureId
deriving DecidableEq

/-- A tessellated primitive (`epaint::Primitive`): a mesh (with its texture id
and emptiness), or a custom callback, which the source leaves
`unimplemented!`. -/
inductive Primitive where
  | mesh (texture_id : TextureId) (is_empty : Bool)
  | callback
deriving DecidableEq

/-- In-place patch of the descriptor at `id`: blit the delivered image into its
source buffer at the delta offset (`tex.gd_src_img.blit_rect(...)`). -/
def patch_textures (textures : TexMap) (id : TextureId) (img : Image)
    (p : Nat × Nat) : TexMap :=
  aupdate textures id
    (fun t => { t with gd_src_img := blit_rect t.gd_src_img img p.1 p.2 })

/-- Apply one texture `set` delta (`handle_output`, texture section).  A delta
with an offset patches the existing descriptor in place; the source `unwrap`s
the lookup, so a missing descriptor is a panic (`none`).  A delta without an
offset creates a descriptor; host construction failures are logged and the
delta is dropped.  `fresh` names the newly derived texture handle. -/
def apply_texture_set (textures : TexMap) (id : TextureId) (img : Image)
    (pos : Option (Nat × Nat)) (imgOk texOk : Bool) (fresh : Nat) :
    Option (TexMap × List BridgeEvent) :=
  if imgOk = false then some (textures, [BridgeEvent.errorCreateImage id])
  else
    match pos with
    | some p =>
      match alookup textures id with
      | none => none
      | some _ => some (patch_textures textures id img p, [])
    | none =>
      if texOk = false then some (textures, [BridgeEvent.errorCreateTexture id])
      else some (ainsert textures id { gd_src_img := img, gd_tex := fresh }, [])

/-- Apply one texture `free` delta: remove the descriptor, warning when it was
already absent. -/
def apply_texture_free (textures : TexMap) (id : TextureId) :
    TexMap × List BridgeEvent :=
  match alookup textures id with
  | none => (textures, [BridgeEvent.warnTextureNotFound id])
  | some _ => (aerase textures id, [])

/-- Fold `apply_texture_set` over the set deltas of a frame, threading a fresh
handle counter. -/
def apply_texture_sets : TexMap → List SetDelta → Nat →
    Option (TexMap × List BridgeEvent × Nat)
  | textures, [], fresh => some (textures, [], fresh)
  | textures, d :: rest, fresh =>
    match apply_texture_set textures d.id d.image d.pos d.imgOk d.texOk fresh with
    | none => none
    | some r =>
      match apply_texture_sets r.1 rest (fresh + 1) with
      | none => none
      | some r2 => some (r2.1, r.2 ++ r2.2.1, r2.2.2)

/-- Fold `apply_texture_free` over the free deltas of a frame. -/
def apply_texture_frees : TexMap → List TextureId → TexMap × List BridgeEvent
  | textures, [] => (textures, [])
  | textures, id :: rest =>
    let r := apply_texture_free textures id
    let r2 := apply_texture_frees r.1 rest
    (r2.1, r.2 ++ r2.2)

/-- Result of the canvas-item pool bookkeeping. -/
structure PoolUpdate where
  pool : List Nat
  created : List Nat
  freed : List Nat
deriving DecidableEq

/-- Canvas-item pool bookkeeping (`handle_output`, lines growing the pool up to
the primitive count and draining the excess).  `fresh` seeds the newly created
item handles. -/
def update_canvas_items (pool : List Nat) (p : Nat) (fresh : Nat) : PoolUpdate :=
  let created := (List.range (p - pool.length)).map (fresh + ·)
  let grown := pool ++ created
  { pool := grown.take p, created := created, freed := grown.drop p }

/-- Spawn a viewport (`EguiBridge::spawn_viewport`).  A fresh host control is
always created; in the windowed branch a fresh host window is also created and
the control is reparented under it.  As in the source, the created window is
never written into the `window` field of the context, which stays `none`.
`fresh` names the control handle and `fresh + 1` the window handle. -/
def spawn_viewport (vps : VpMap) (id : ViewportId)
    (windowing : Option (ViewportId × Builder)) (fresh : Nat) :
    VpMap × List BridgeEvent :=
  match windowing with
  | some pw =>
    let vp : ViewportContext :=
      { control := fresh, parent_id := some pw.1, window := none,
        window_setup := pw.2, input := {} }
    (ainsert vps id vp, [BridgeEvent.spawnControl id, BridgeEvent.spawnWindow id])
  | none =>
    let vp : ViewportContext :=
      { control := fresh, parent_id := none, window := none,
        window_setup := 0, input := {} }
    (ainsert vps id vp, [BridgeEvent.spawnControl id])

/-- Despawn a viewport (`EguiBridge::despawn_viewport`): the entry is removed
(`unwrap` on a missing id is a panic), its control is freed, and the window, if
recorded in the context, is freed after the control. -/
def despawn_viewport (vps : VpMap) (id : ViewportId) :
    Option (VpMap × List BridgeEvent) :=
  match alookup vps id with
  | none => none
  | some ctx =>
    some (aerase vps id,
      BridgeEvent.freeControl id ::
        (match ctx.window with
         | some _ => [BridgeEvent.freeWindow id]
         | none => []))

/-- Mutable state threaded through the reconciliation loop of
`handle_output`. -/
structure RState where
  viewports : VpMap
  sched : Sched
  events : List BridgeEvent
  repainted : List ViewportId
  remaining : List ViewportId
  fresh : Nat
deriving DecidableEq

/-- Viewport part of one reconciliation iteration: spawn an unseen id, or diff
the known configuration (`ViewportBuilder::patch`, supplied as the oracle
`patch` returning the updated baseline, the command list and the recreate
flag); a recreate diff despawns and respawns with the updated baseline, and
otherwise the commands are applied (all no-ops in the source). -/
def reconcile_vp_phase (patch : Builder → Builder → Builder × List Cmd × Bool)
    (st : RState) (id : ViewportId) (vout : ViewportOutput) : Option RState :=
  if id ∈ st.remaining then
    match alookup st.viewports id with
    | none => none
    | some vp =>
      if (patch vp.window_setup vout.builder).2.2 then
        match despawn_viewport st.viewports id with
        | none => none
        | some de =>
          some { st with
                 viewports := (spawn_viewport de.1 id
                   (some (vout.parent, (patch vp.window_setup vout.builder).1))
                   st.fresh).1
                 remaining := st.remaining.erase id
                 events := st.events ++ de.2 ++
                   (spawn_viewport de.1 id
                     (some (vout.parent, (patch vp.window_setup vout.builder).1))
                     st.fresh).2
                 fresh := st.fresh + 2 }
      else
        some { st with
               viewports := aupdate st.viewports id
                 (fun v => { v with
                   window_setup := (patch vp.window_setup vout.builder).1 })
               remaining := st.remaining.erase id }
  else
    some { st with
           viewports := (spawn_viewport st.viewports id
             (some (vout.parent, vout.builder)) st.fresh).1
           events := st.events ++
             (spawn_viewport st.viewports id
               (some (vout.parent, vout.builder)) st.fresh).2
           fresh := st.fresh + 2 }

/-- Repaint-schedule part of one reconciliation iteration: take the entry for
this id out of the schedule; when due, run the deferred ui callback and record
the id for a post-paint redraw, otherwise put the entry back unchanged. -/
def reconcile_sched_phase (now : Nat) (id : ViewportId) (has_cb : Bool)
    (st : RState) : RState :=
  match alookup st.sched id with
  | none => st
  | some at_ =>
    let sched := aerase st.sched id
    if at_ ≤ now then
      { st with
        sched := sched
        events := st.events ++
          (if has_cb then [BridgeEvent.runDeferredCb id] else [])
        repainted := st.repainted ++ [id] }
    else
      { st with sched := ainsert sched id at_ }

/-- One iteration of the reconciliation loop over `FullOutput.viewport_output`. -/
def reconcile_step (patch : Builder → Builder → Builder × List Cmd × Bool)
    (now : Nat) (st : RState) (e : ViewportId × ViewportOutput) : Option RState :=
  (reconcile_vp_phase patch st e.1 e.2).map (reconcile_sched_phase now e.1 e.2.has_ui_cb)

/-- The reconciliation loop. -/
def reconcile_fold (patch : Builder → Builder → Builder × List Cmd × Bool)
    (now : Nat) : List (ViewportId × ViewportOutput) → RState → Option RState
  | [], st => some st
  | e :: rest, st =>
    match reconcile_step patch now st e with
    | none => none
    | some st1 => reconcile_fold patch now rest st1

/-- One iteration of the trailing despawn loop for ids absent from the output. -/
def despawn_step (st : RState) (id : ViewportId) : Option RState :=
  match despawn_viewport st.viewports id with
  | none => none
  | some r => some { st with viewports := r.1, events := st.events ++ r.2 }

/-- The trailing despawn loop. -/
def despawn_fold : List ViewportId → RState → Option RState
  | [], st => some st
  | id :: rest, st =>
    match despawn_step st id with
    | none => none
    | some st1 => despawn_fold rest st1

/-- Full viewport reconciliation of one frame output (`handle_output`, deferred
viewport section): the set of live ids is collected, each output entry is
processed, and every id not re-requested is despawned. -/
def reconcile (patch : Builder → Builder → Builder × List Cmd × Bool)
    (now : Nat) (vps : VpMap) (sched : Sched)
    (outs : List (ViewportId × ViewportOutput)) (fresh : Nat) : Option RState :=
  match reconcile_fold patch now outs
      { viewports := vps, sched := sched, events := [], repainted := [],
        remaining := vps.map Prod.fst, fresh := fresh } with
  | none => none
  | some st1 => despawn_fold st1.remaining st1

/-- Painting loop over the tessellated primitives (`handle_output`, painting
section): a mesh primitive clears its canvas item, then repopulates it unless
empty, warning and skipping on a missing texture; a callback primitive is
`unimplemented!` (`none`). -/
def paint_primitives (pool : List Nat) (textures : TexMap) :
    List Primitive → Nat → Option (List BridgeEvent)
  | [], _ => some []
  | p :: rest, i =>
    match p with
    | .callback => none
    | .mesh texId isEmp =>
      let rid := pool.getD i 0
      let evs :=
        if isEmp then [BridgeEvent.clearCanvasItem rid]
        else
          match alookup textures texId with
          | none => [BridgeEvent.clearCanvasItem rid, BridgeEvent.warnMissingTexture texId]
          | some _ => [BridgeEvent.clearCanvasItem rid, BridgeEvent.drawMesh rid texId]
      match paint_primitives pool textures rest (i + 1) with
      | none => none
      | some evs2 => some (evs ++ evs2)

/-- Post-paint redraw requests for every viewport repainted this tick; the
source `unwrap`s each map lookup. -/
def queue_redraws (vps : VpMap) : List ViewportId → Option (List BridgeEvent)
  | [] => some []
  | id :: rest =>
    match alookup vps id with
    | none => none
    | some _ =>
      match queue_redraws vps rest with
      | none => none
      | some evs => some (BridgeEvent.queueRedraw id :: evs)

/-- Bridge controller state (`EguiBridge` fields relevant to the frame loop). -/
structure BridgeState where
  started : Bool
  viewports : VpMap
  textures : TexMap
  canvas_items : List Nat
  sched : Sched
  focus : ViewportId × Bool
  cached_screen_rect : ERect
  fresh : Nat
deriving DecidableEq

/-- `EguiBridge::handle_output`: viewport reconciliation, texture set deltas,
canvas-item pool bookkeeping, painting, texture frees, and redraw requests,
in source order.  `prims` is the tessellation oracle output for the frame
shapes. -/
def handle_output (patch : Builder → Builder → Builder × List Cmd × Bool)
    (now : Nat) (st : BridgeState) (out : FullOutput) (prims : List Primitive) :
    Option (BridgeState × List BridgeEvent) :=
  match reconcile patch now st.viewports st.sched out.viewport_output st.fresh with
  | none => none
  | some rst =>
    match apply_texture_sets st.textures out.textures_set rst.fresh with
    | none => none
    | some ts =>
      match paint_primitives
          (update_canvas_items st.canvas_items prims.length ts.2.2).pool
          ts.1 prims 0 with
      | none => none
      | some paintEv =>
        match queue_redraws rst.viewports rst.repainted with
        | none => none
        | some redrawEv =>
          some ({ st with
                  viewports := rst.viewports
                  sched := rst.sched
                  textures := (apply_texture_frees ts.1 out.textures_free).1
                  canvas_items :=
                    (update_canvas_items st.canvas_items prims.length ts.2.2).pool
                  fresh := ts.2.2 +
                    (update_canvas_items st.canvas_items prims.length ts.2.2).created.length },
            rst.events ++ ts.2.1
              ++ (update_canvas_items st.canvas_items prims.length ts.2.2).created.map
                   BridgeEvent.createCanvasItem
              ++ (update_canvas_items st.canvas_items prims.length ts.2.2).freed.map
                   BridgeEvent.freeCanvasItem
              ++ paintEv ++ (apply_texture_frees ts.1 out.textures_free).2 ++ redrawEv)

/-- The idle early-return check of `on_process`: whether any repaint-schedule
entry is strictly earlier than now (`*time < now` in the source). -/
def should_repaint (sched : Sched) (now : Nat) : Bool :=
  sched.any fun e => decide (e.2 < now)

/-- `RawInput` assembly: fix up the shared focus tuple when it names a dead
viewport (fall back to ROOT, unfocused), then build the input from the
snapshots; the root snapshot read indexes the map and panics when ROOT is
absent.  Returns the input and the written-back focus tuple. -/
def assemble_raw_input (vps : VpMap) (focus : ViewportId × Bool)
    (now delta : Nat) (queued : List Nat) :
    Option (RawInput × (ViewportId × Bool)) :=
  let fc := if (alookup vps focus.1).isSome then focus else (ROOT, false)
  match alookup vps ROOT with
  | none => none
  | some root =>
    some ({ viewport_id := fc.1,
            viewports := vps.map fun e =>
              (e.1, { e.2.input with native_pixels_per_point := some 1 }),
            screen_rect := root.input.inner_rect,
            max_texture_side := 8192,
            time := now, predicted_dt := delta,
            events := queued, focused := fc.2 }, fc)

/-- Render-target refresh of a processed tick: when the display bounding box
changed since the cached value, the cache is updated and the shared render
surface is resized. -/
def screen_refresh (screen_rect : ERect) (st : BridgeState) :
    BridgeState × List BridgeEvent :=
  if st.cached_screen_rect ≠ screen_rect then
    ({ st with cached_screen_rect := screen_rect },
     [BridgeEvent.resizeRenderTarget])
  else (st, [])

/-- `EguiBridge::on_process`.  First invocation: mark started and spawn the
ROOT viewport without a window (no frame end, no reconciliation).  Later
invocations: return early unless a repaint-schedule entry is due; otherwise
refresh the cached screen rectangle, end the frame (the resulting `FullOutput`
is the oracle `out`) and handle it.  Every non-idle tick then fixes up the
focus tuple, assembles `RawInput` and begins the next frame. -/
def on_process (patch : Builder → Builder → Builder × List Cmd × Bool)
    (now delta : Nat) (screen_rect : ERect) (st : BridgeState)
    (out : FullOutput) (prims : List Primitive) (queued : List Nat) :
    Option (BridgeState × List BridgeEvent) :=
  if st.started = false then
    match assemble_raw_input (spawn_viewport st.viewports ROOT none st.fresh).1
        st.focus now delta queued with
    | none => none
    | some ri =>
      some ({ st with
              started := true
              viewports := (spawn_viewport st.viewports ROOT none st.fresh).1
              fresh := st.fresh + 1
              focus := ri.2 },
        (spawn_viewport st.viewports ROOT none st.fresh).2 ++
          [BridgeEvent.beginFrame ri.1])
  else
    if should_repaint st.sched now = false then some (st, [])
    else
      match handle_output patch now (screen_refresh screen_rect st).1 out prims with
      | none => none
      | some ho =>
        match assemble_raw_input ho.1.viewports ho.1.focus now delta queued with
        | none => none
        | some ri =>
          some ({ ho.1 with focus := ri.2 },
            (screen_refresh screen_rect st).2 ++
              BridgeEvent.endFrame :: ho.2 ++ [BridgeEvent.beginFrame ri.1])

/-- Host notifications delivered to a per-viewport io control. -/
inductive ControlNotification where
  | focusEnter
  | focusExit
  | resized
  | other
deriving DecidableEq

/-- `EguiViewportIoBridge::on_notification` acting on the shared focus tuple,
the local input snapshot of this control, and the repaint schedule.  A resize
writes the recomputed global rectangle into the snapshot and schedules an
immediate repaint for this id. -/
def on_notification (selfId : ViewportId) (what : ControlNotification)
    (rect : Option ERect) (now : Nat) (tuple : ViewportId × Bool)
    (input : ViewportInfo) (sched : Sched) :
    (ViewportId × Bool) × ViewportInfo × Sched :=
  match what with
  | .focusEnter => ((selfId, true), { input with focused := some true }, sched)
  | .focusExit =>
    ((if tuple.1 = selfId then (selfId, false) else tuple),
     { input with focused := some false }, sched)
  | .resized => (tuple, { input with inner_rect := rect }, ainsert sched selfId now)
  | .other => (tuple, input, sched)

/-! Concrete fixtures used by counterexamples and witnesses. -/

/-- A patch oracle that adopts the requested builder and never demands
recreation. -/
def patch0 : Builder → Builder → Builder × List Cmd × Bool :=
  fun _ b => (b, [], false)

/-- Empty reconciliation state, used as an `Option.getD` default. -/
def rstEmpty : RState :=
  { viewports := [], sched := [], events := [], repainted := [],
    remaining := [], fresh := 0 }

/-- Fresh bridge state before the first tick. -/
def bsInit : BridgeState :=
  { started := false, viewports := [], textures := [], canvas_items := [],
    sched := [], focus := (ROOT, false), cached_screen_rect := 0, fresh := 0 }

/-- A frame output requesting nothing. -/
def outEmpty : FullOutput :=
  { viewport_output := [], textures_set := [], textures_free := [] }

/-- A viewport output entry for the root viewport. -/
def outR : ViewportOutput := { parent := ROOT, builder := 0, has_ui_cb := false }

/-- Live map holding only the root viewport, as spawned on the first tick. -/
def vpsRoot : VpMap := (spawn_viewport [] ROOT none 0).1

/-- Live map holding the root viewport and a windowed viewport with id 1. -/
def vpsC1 : VpMap := (spawn_viewport vpsRoot 1 (some (ROOT, 5)) 1).1

/-- Reconciliation of a tick whose output omits the windowed viewport 1. -/
def stC1 : RState :=
  (reconcile patch0 10 vpsC1 [] [(ROOT, outR)] 4).getD rstEmpty

/-- Result of the very first tick from a fresh bridge state. -/
def firstTickRes : Option (BridgeState × List BridgeEvent) :=
  on_process patch0 5 1 0 bsInit outEmpty [] []

/-- A started bridge whose only schedule entry is due exactly at time 5. -/
def bsDueAtNow : BridgeState :=
  { bsInit with started := true, sched := [(0, 5)] }

/-- A started bridge with only the root viewport live. -/
def bsW5 : BridgeState :=
  { bsInit with started := true, viewports := vpsRoot }

/-- A started bridge with root and windowed viewport 1 live and a pending
repaint entry for viewport 1. -/
def bsW10 : BridgeState :=
  { bsInit with started := true, viewports := vpsC1, sched := [(1, 2)] }

/-- A frame output that re-requests only the root viewport. -/
def outW10 : FullOutput :=
  { viewport_output := [(ROOT, outR)], textures_set := [], textures_free := [] }

/-- A 2x2 host image buffer. -/
def imgDst : Image := { w := 2, h := 2, data := [10, 11, 12, 13] }

/-- A 1x1 delivered image. -/
def imgW : Image := { w := 1, h := 1, data := [7] }

/-- A live texture descriptor for id 3. -/
def texW : TextureDescriptor := { gd_src_img := imgDst, gd_tex := 9 }

/-- A texture map holding only the descriptor for id 3. -/
def texsW : TexMap := [(3, texW)]

/-! Basic lemmas about the association-map operations. -/

theorem alookup_ainsert_self {β : Type} (m : List (Nat × β)) (k : Nat) (v : β) :
    alookup (ainsert m k v) k = some v := by
  simp [ainsert, alookup]

theorem alookup_aerase_self {β : Type} (m : List (Nat × β)) (k : Nat) :
    alookup (aerase m k) k = none := by
  induction m with
  | nil => rfl
  | cons e rest ih =>
    by_cases h : e.1 = k
    · simpa [aerase, h] using ih
    · simp [aerase, h, alookup, ih]

theorem alookup_aerase_ne {β : Type} (m : List (Nat × β)) {k j : Nat} (h : j ≠ k) :
    alookup (aerase m k) j = alookup m j := by
  induction m with
  | nil => rfl
  | cons e rest ih =>
    by_cases hek : e.1 = k
    · have hkj : k ≠ j := fun hh => h hh.symm
      have hej : e.1 ≠ j := by rw [hek]; exact hkj
      simp [aerase, hek, alookup, hej, hkj, ih]
    · simp [aerase, hek, alookup, ih]

theorem alookup_ainsert_ne {β : Type} (m : List (Nat × β)) {k j : Nat} (v : β)
    (h : j ≠ k) : alookup (ainsert m k v) j = alookup m j := by
  have hk : k ≠ j := fun hh => h hh.symm
  simp [ainsert, alookup, hk, alookup_aerase_ne m h]

theorem alookup_aupdate_self {β : Type} (m : List (Nat × β)) (k : Nat) (f : β → β) :
    alookup (aupdate m k f) k = (alookup m k).map f := by
  induction m with
  | nil => rfl
  | cons e rest ih =>
    by_cases h : e.1 = k
    · simp [aupdate, h, alookup]
    · simp [aupdate, h, alookup, ih]

theorem alookup_aupdate_ne {β : Type} (m : List (Nat × β)) {k j : Nat} (f : β → β)
    (h : j ≠ k) : alookup (aupdate m k f) j = alookup m j := by
  induction m with
  | nil => rfl
  | cons e rest ih =>
    by_cases hek : e.1 = k
    · have hkj : k ≠ j := fun hh => h hh.symm
      have hej : e.1 ≠ j := by rw [hek]; exact hkj
      simp [aupdate, hek, alookup, hkj, hej, ih]
    · simp [aupdate, hek, alookup, ih]

theorem alookup_aupdate_isSome {β : Type} (m : List (Nat × β)) (k : Nat)
    (f : β → β) (j : Nat) :
    (alookup (aupdate m k f) j).isSome = (alookup m j).isSome := by
  by_cases h : j = k
  · subst h
    rw [alookup_aupdate_self]
    cases alookup m j <;> rfl
  · rw [alookup_aupdate_ne m f h]

theorem alookup_isSome_iff_mem {β : Type} (m : List (Nat × β)) (k : Nat) :
    (alookup m k).isSome = true ↔ k ∈ m.map Prod.fst := by
  induction m with
  | nil => simp [alookup]
  | cons e rest ih =>
    by_cases h : e.1 = k
    · simp [alookup, h]
    · simp [alookup, h, Ne.symm h, ih]

theorem should_repaint_of_lookup {sched : Sched} {id t : Nat}
    (h : alookup sched id = some t) {n : Nat} (hlt : t < n) :
    should_repaint sched n = true := by
  induction sched with
  | nil => simp [alookup] at h
  | cons e rest ih =>
    by_cases he : e.1 = id
    · simp [alookup, he] at h
      subst h
      simp [should_repaint, List.any_cons]
      exact Or.inl hlt
    · simp [alookup, he] at h
      have := ih h
      simp [should_repaint, List.any_cons] at this ⊢
      exact Or.inr this

/-! Structural lemmas about the reconciliation phases. -/

theorem sched_phase_viewports (now : Nat) (id : ViewportId) (cb : Bool) (st : RState) :
    (reconcile_sched_phase now id cb st).viewports = st.viewports := by
  unfold reconcile_sched_phase
  cases alookup st.sched id with
  | none => rfl
  | some a => by_cases hle : a ≤ now <;> simp [hle]

theorem sched_phase_remaining (now : Nat) (id : ViewportId) (cb : Bool) (st : RState) :
    (reconcile_sched_phase now id cb st).remaining = st.remaining := by
  unfold reconcile_sched_phase
  cases alookup st.sched id with
  | none => rfl
  | some a => by_cases hle : a ≤ now <;> simp [hle]

theorem sched_phase_events (now : Nat) (id : ViewportId) (cb : Bool) (st : RState) :
    ∀ e ∈ (reconcile_sched_phase now id cb st).events,
      e ∈ st.events ∨ e = BridgeEvent.runDeferredCb id := by
  unfold reconcile_sched_phase
  cases alookup st.sched id with
  | none => exact fun e he => Or.inl he
  | some a =>
    by_cases hle : a ≤ now
    · cases cb
      · simp [hle]
        exact fun e he => Or.inl he
      · simp [hle]
    · simp [hle]
      exact fun e he => Or.inl he

theorem sched_phase_sched_ne (now : Nat) (id : ViewportId) (cb : Bool) (st : RState)
    {j : Nat} (hj : j ≠ id) :
    alookup (reconcile_sched_phase now id cb st).sched j = alookup st.sched j := by
  unfold reconcile_sched_phase
  cases h : alookup st.sched id with
  | none => rfl
  | some a =>
    by_cases hle : a ≤ now
    · simp [hle, alookup_aerase_ne _ hj]
    · simp [hle, alookup_ainsert_ne _ _ hj, alookup_aerase_ne _ hj]

theorem vp_phase_sched {patch : Builder → Builder → Builder × List Cmd × Bool}
    {st : RState} {id : ViewportId} {vout : ViewportOutput} {st1 : RState}
    (h : reconcile_vp_phase patch st id vout = some st1) : st1.sched = st.sched := by
  unfold reconcile_vp_phase at h
  split at h
  · split at h
    · simp at h
    · split at h
      · split at h
        · simp at h
        · injection h with h1
          subst h1
          rfl
      · injection h with h1
        subst h1
        rfl
  · injection h with h1
    subst h1
    rfl

theorem vp_phase_of_live {patch : Builder → Builder → Builder × List Cmd × Bool}
    {st : RState} {id : ViewportId} {vout : ViewportOutput} {vp : ViewportContext}
    (hid : id ∈ st.remaining) (hvp : alookup st.viewports id = some vp)
    (hrec : (patch vp.window_setup vout.builder).2.2 = false) :
    reconcile_vp_phase patch st id vout = some
      { st with
        viewports := aupdate st.viewports id
          (fun v => { v with window_setup := (patch vp.window_setup vout.builder).1 })
        remaining := st.remaining.erase id } := by
  unfold reconcile_vp_phase
  rw [if_pos hid, hvp]
  simp [hrec]

theorem despawn_step_sched {st : RState} {id : ViewportId} {st1 : RState}
    (h : despawn_step st id = some st1) : st1.sched = st.sched := by
  unfold despawn_step at h
  cases hd : despawn_viewport st.viewports id with
  | none => rw [hd] at h; simp at h
  | some r =>
    rw [hd] at h
    injection h with h1
    subst h1
    rfl

theorem despawn_fold_sched :
    ∀ {ids : List ViewportId} {st st' : RState},
      despawn_fold ids st = some st' → st'.sched = st.sched
  | [], st, st', h => by
    injection h with h1
    subst h1
    rfl
  | id :: rest, st, st', h => by
    unfold despawn_fold at h
    cases hd : despawn_step st id with
    | none => rw [hd] at h; simp at h
    | some st1 =>
      rw [hd] at h
      rw [despawn_fold_sched h, despawn_step_sched hd]

theorem reconcile_step_sched_ne
    {patch : Builder → Builder → Builder × List Cmd × Bool} {now : Nat}
    {st st2 : RState} {e : ViewportId × ViewportOutput}
    (h : reconcile_step patch now st e = some st2) {j : Nat} (hj : j ≠ e.1) :
    alookup st2.sched j = alookup st.sched j := by
  unfold reconcile_step at h
  cases hv : reconcile_vp_phase patch st e.1 e.2 with
  | none => rw [hv] at h; simp at h
  | some st1 =>
    rw [hv] at h
    injection h with h1
    subst h1
    rw [sched_phase_sched_ne _ _ _ _ hj, vp_phase_sched hv]

theorem reconcile_fold_sched_preserve
    {patch : Builder → Builder → Builder × List Cmd × Bool} {now : Nat} :
    ∀ (outs : List (ViewportId × ViewportOutput)) (st st' : RState) (j : Nat),
      reconcile_fold patch now outs st = some st' →
      j ∉ outs.map Prod.fst → alookup st'.sched j = alookup st.sched j
  | [], st, st', j, h, _ => by
    injection h with h1
    subst h1
    rfl
  | e :: rest, st, st', j, h, hj => by
    unfold reconcile_fold at h
    cases hs : reconcile_step patch now st e with
    | none => rw [hs] at h; simp at h
    | some st1 =>
      rw [hs] at h
      have hj1 : j ≠ e.1 := by
        intro hh
        exact hj (by simp [hh])
      have hj2 : j ∉ rest.map Prod.fst := by
        intro hh
        exact hj (by simp [hh])
      rw [reconcile_fold_sched_preserve rest st1 st' j h hj2,
        reconcile_step_sched_ne hs hj1]

theorem reconcile_sched_preserve
    {patch : Builder → Builder → Builder × List Cmd × Bool} {now : Nat}
    {vps : VpMap} {sched : Sched} {outs : List (ViewportId × ViewportOutput)}
    {fresh : Nat} {rst : RState}
    (h : reconcile patch now vps sched outs fresh = some rst)
    {j : Nat} (hj : j ∉ outs.map Prod.fst) :
    alookup rst.sched j = alookup sched j := by
  unfold reconcile at h
  cases hf : reconcile_fold patch now outs
      { viewports := vps, sched := sched, events := [], repainted := [],
        remaining := vps.map Prod.fst, fresh := fresh } with
  | none => rw [hf] at h; simp at h
  | some st1 =>
    rw [hf] at h
    rw [despawn_fold_sched h]
    exact reconcile_fold_sched_preserve _ _ _ _ hf hj

/-! Lemmas about the canvas-item pool bookkeeping. -/

theorem uci_pool_length (pool : List Nat) (p fresh : Nat) :
    (update_canvas_items pool p fresh).pool.length = p := by
  simp [update_canvas_items]
  omega

theorem uci_grow (pool : List Nat) (p fresh : Nat) (h : pool.length ≤ p) :
    (update_canvas_items pool p fresh).created.length = p - pool.length ∧
    (update_canvas_items pool p fresh).freed = [] ∧
    (update_canvas_items pool p fresh).pool =
      pool ++ (update_canvas_items pool p fresh).created := by
  refine ⟨by simp [update_canvas_items], ?_, ?_⟩
  · apply List.drop_eq_nil_of_le
    simp
    omega
  · apply List.take_of_length_le
    simp
    omega

theorem uci_shrink (pool : List Nat) (p fresh : Nat) (h : p ≤ pool.length) :
    (update_canvas_items pool p fresh).created = [] ∧
    (update_canvas_items pool p fresh).freed = pool.drop p ∧
    (update_canvas_items pool p fresh).pool = pool.take p := by
  have hz : p - pool.length = 0 := Nat.sub_eq_zero_of_le h
  simp [update_canvas_items, hz]

theorem uci_partition (pool : List Nat) (p fresh : Nat) {r : Nat} (hr : r ∈ pool) :
    r ∈ (update_canvas_items pool p fresh).pool ∨
      r ∈ (update_canvas_items pool p fresh).freed := by
  have hmem : r ∈ pool ++ (List.range (p - pool.length)).map (fresh + ·) :=
    List.mem_append_left _ hr
  rw [← List.take_append_drop p
    (pool ++ (List.range (p - pool.length)).map (fresh + ·))] at hmem
  rcases List.mem_append.mp hmem with h | h
  · exact Or.inl h
  · exact Or.inr h

/-! Lemmas about image patching. -/

theorem getD_map_range (n i d : Nat) (f : Nat → Nat) (h : i < n) :
    (((List.range n).map f).getD i d) = f i := by
  rw [List.getD_eq_getElem?_getD]
  simp [List.getElem?_map, List.getElem?_range, h]

theorem blit_rect_getD (dst src : Image) (dx dy x y : Nat)
    (hx : x < src.w) (hy : y < src.h)
    (hxd : dx + x < dst.w) (hyd : dy + y < dst.h) :
    (blit_rect dst src dx dy).data.getD ((dy + y) * dst.w + (dx + x)) 0 =
      src.data.getD (y * src.w + x) 0 := by
  have hw : 0 < dst.w := by omega
  have hidx : (dy + y) * dst.w + (dx + x) < dst.w * dst.h := by
    calc (dy + y) * dst.w + (dx + x) < (dy + y) * dst.w + dst.w := by omega
    _ = (dy + y + 1) * dst.w := by ring
    _ ≤ dst.h * dst.w := Nat.mul_le_mul_right _ (by omega)
    _ = dst.w * dst.h := Nat.mul_comm _ _
  unfold blit_rect
  rw [getD_map_range _ _ _ _ hidx]
  have hmod : ((dy + y) * dst.w + (dx + x)) % dst.w = dx + x := by
    rw [Nat.add_comm, Nat.add_mul_mod_self_right]
    exact Nat.mod_eq_of_lt hxd
  have hdiv : ((dy + y) * dst.w + (dx + x)) / dst.w = dy + y := by
    rw [Nat.add_comm, Nat.add_mul_div_right _ _ hw, Nat.div_eq_of_lt hxd]
    omega
  rw [hmod, hdiv]
  have hcond : dx ≤ dx + x ∧ dx + x < dx + src.w ∧ dy ≤ dy + y ∧ dy + y < dy + src.h :=
    ⟨Nat.le_add_right _ _, by omega, Nat.le_add_right _ _, by omega⟩
  rw [if_pos hcond]
  have h1 : dy + y - dy = y := by omega
  have h2 : dx + x - dx = x := by omega
  rw [h1, h2]

/-! Main invariant of the reconciliation loop when every output id is live and
no configuration diff demands recreation: the loop succeeds, emits no spawn or
despawn host call, and consumes exactly the output ids from the remaining
set. -/

theorem reconcile_fold_no_lifecycle
    (patch : Builder → Builder → Builder × List Cmd × Bool) (now : Nat)
    (hpatch : ∀ a b, (patch a b).2.2 = false) :
    ∀ (outs : List (ViewportId × ViewportOutput)) (st : RState),
      (outs.map Prod.fst).Nodup →
      (∀ id, id ∈ outs.map Prod.fst → id ∈ st.remaining) →
      (∀ id, id ∈ st.remaining → (alookup st.viewports id).isSome = true) →
      st.remaining.Nodup →
      ∃ st', reconcile_fold patch now outs st = some st' ∧
        (∀ e, e ∈ st'.events → e ∈ st.events ∨ is_lifecycle_event e = false) ∧
        (∀ j, j ∈ st'.remaining ↔ j ∈ st.remaining ∧ j ∉ outs.map Prod.fst) ∧
        st'.remaining.Nodup ∧
        (∀ j, j ∈ st'.remaining → (alookup st'.viewports j).isSome = true) := by
  intro outs
  induction outs with
  | nil =>
    intro st _ _ hlook hnd
    exact ⟨st, rfl, fun e he => Or.inl he, by simp, hnd, hlook⟩
  | cons ev rest ih =>
    intro st hndO hmem hlook hnd
    obtain ⟨id, vout⟩ := ev
    have hndO' : id ∉ rest.map Prod.fst ∧ (rest.map Prod.fst).Nodup := by
      rw [List.map_cons] at hndO
      exact List.nodup_cons.mp hndO
    have hid : id ∈ st.remaining := hmem id (by simp)
    have hsome := hlook id hid
    obtain ⟨vp, hvp⟩ := Option.isSome_iff_exists.mp hsome
    have hvpph := vp_phase_of_live hid hvp (hpatch vp.window_setup vout.builder)
    set st1 : RState :=
      { st with
        viewports := aupdate st.viewports id
          (fun v => { v with window_setup := (patch vp.window_setup vout.builder).1 })
        remaining := st.remaining.erase id } with hst1
    have hstep : reconcile_step patch now st (id, vout) =
        some (reconcile_sched_phase now id vout.has_ui_cb st1) := by
      simp [reconcile_step, hvpph]
    set st2 := reconcile_sched_phase now id vout.has_ui_cb st1 with hst2
    have hrem2 : st2.remaining = st.remaining.erase id := by
      rw [hst2, sched_phase_remaining]
    have hvps2 : st2.viewports = st1.viewports := by
      rw [hst2, sched_phase_viewports]
    have hihmem : ∀ j, j ∈ rest.map Prod.fst → j ∈ st2.remaining := by
      intro j hj
      rw [hrem2]
      have hjs : j ∈ st.remaining := hmem j (by simp [hj])
      have hjne : j ≠ id := by
        intro hh
        subst hh
        exact hndO'.1 hj
      exact (List.mem_erase_of_ne hjne).mpr hjs
    have hihlook : ∀ j, j ∈ st2.remaining → (alookup st2.viewports j).isSome = true := by
      intro j hj
      rw [hrem2] at hj
      have hbase := hlook j (List.mem_of_mem_erase hj)
      rw [hvps2]
      simpa [hst1, alookup_aupdate_isSome] using hbase
    have hihnd : st2.remaining.Nodup := by
      rw [hrem2]
      exact hnd.erase id
    obtain ⟨st', hfold', hev', hrem', hnd', hlook'⟩ :=
      ih st2 hndO'.2 hihmem hihlook hihnd
    refine ⟨st', ?_, ?_, ?_, hnd', hlook'⟩
    · show reconcile_fold patch now ((id, vout) :: rest) st = some st'
      unfold reconcile_fold
      rw [hstep]
      exact hfold'
    · intro e he
      rcases hev' e he with he2 | he2
      · rcases sched_phase_events now id vout.has_ui_cb st1 e he2 with he3 | he3
        · exact Or.inl he3
        · right
          rw [he3]
          rfl
      · exact Or.inr he2
    · intro j
      rw [hrem' j, hrem2, List.Nodup.mem_erase_iff hnd]
      simp only [List.map_cons, List.mem_cons, not_or]
      tauto

/-! Claim theorems. -/

/-- Claim C1 (code bug).  The claim states that despawning a live windowed
viewport releases its host control and then its host window.  On the embedded
code, spawning the windowed viewport 1 leaves its context `window` field
`none` (the source never assigns the created window), so the despawn triggered
by a reconciliation output omitting id 1 frees only the control and never
frees the window, although the viewport entry itself is removed. -/
theorem C1_despawn_leaks_window :
    (alookup vpsC1 1).map ViewportContext.window = some none ∧
    (reconcile patch0 10 vpsC1 [] [(ROOT, outR)] 4).isSome = true ∧
    BridgeEvent.freeControl 1 ∈ stC1.events ∧
    stC1.events.all (fun e => !is_free_window e) = true ∧
    alookup stC1.viewports 1 = none := by
  decide

/-- Claim C6.  A texture set delta carrying an offset panics (is flagged as a
contract violation) exactly when no descriptor is live for its id; when a
descriptor exists, the delta patches that descriptor's source image in place
by blitting the delivered image at the offset, preserves the descriptor
domain (no new descriptor is created, the derived texture handle is kept),
and the patched buffer holds the delivered pixels at the offset region. -/
theorem C6_texture_patch_contract (textures : TexMap) (id : TextureId)
    (img : Image) (p : Nat × Nat) (texOk : Bool) (fresh : Nat) :
    (apply_texture_set textures id img (some p) true texOk fresh = none ↔
      alookup textures id = none) ∧
    (∀ tex, alookup textures id = some tex →
      apply_texture_set textures id img (some p) true texOk fresh =
        some (patch_textures textures id img p, []) ∧
      alookup (patch_textures textures id img p) id =
        some { tex with gd_src_img := blit_rect tex.gd_src_img img p.1 p.2 } ∧
      (∀ j, (alookup (patch_textures textures id img p) j).isSome =
        (alookup textures j).isSome) ∧
      (∀ x y, x < img.w → y < img.h →
        p.1 + x < tex.gd_src_img.w → p.2 + y < tex.gd_src_img.h →
        (blit_rect tex.gd_src_img img p.1 p.2).data.getD
          ((p.2 + y) * tex.gd_src_img.w + (p.1 + x)) 0 =
          img.data.getD (y * img.w + x) 0)) := by
  have happ : apply_texture_set textures id img (some p) true texOk fresh =
      (match alookup textures id with
       | none => none
       | some _ => some (patch_textures textures id img p, [])) := by
    simp [apply_texture_set]
  constructor
  · rw [happ]
    cases hl : alookup textures id with
    | none => simp
    | some tex => simp
  · intro tex htex
    refine ⟨?_, ?_, ?_, ?_⟩
    · rw [happ, htex]
    · unfold patch_textures
      rw [alookup_aupdate_self, htex]
      rfl
    · intro j
      exact alookup_aupdate_isSome _ _ _ _
    · intro x y hx hy hxd hyd
      exact blit_rect_getD tex.gd_src_img img p.1 p.2 x y hx hy hxd hyd

/-- Witness for claim C6: patching the live descriptor 3 of a 2x2 buffer with
a 1x1 image at offset (1, 1) succeeds, keeps the descriptor, and writes the
delivered pixel. -/
theorem C6_texture_patch_contract_witness :
    apply_texture_set texsW 3 imgW (some (1, 1)) true true 11 =
      some (patch_textures texsW 3 imgW (1, 1), []) ∧
    alookup (patch_textures texsW 3 imgW (1, 1)) 3 =
      some { texW with gd_src_img := blit_rect texW.gd_src_img imgW 1 1 } ∧
    (blit_rect texW.gd_src_img imgW 1 1).data.getD ((1 + 0) * 2 + (1 + 0)) 0 =
      imgW.data.getD (0 * 1 + 0) 0 := by
  obtain ⟨h1, h2, h3, h4⟩ :=
    (C6_texture_patch_contract texsW 3 imgW (1, 1) true 11).2 texW (by decide)
  exact ⟨h1, h2, h4 0 0 (by decide) (by decide) (by decide) (by decide)⟩

/-- Claim C7.  Focus-enter on viewport A then focus-enter on viewport B leaves
the shared focus tuple (B, true); a later stale focus-exit notification from A
does not overwrite the tuple, while the local snapshot of A still records
focused = false. -/
theorem C7_focus_stale_exit (A B : ViewportId) (hAB : A ≠ B)
    (tuple0 : ViewportId × Bool) (inputA0 inputB0 : ViewportInfo)
    (sched : Sched) (rect : Option ERect) (now : Nat) :
    (let s1 := on_notification A ControlNotification.focusEnter rect now
      tuple0 inputA0 sched
     let s2 := on_notification B ControlNotification.focusEnter rect now
      s1.1 inputB0 s1.2.2
     let s3 := on_notification A ControlNotification.focusExit rect now
      s2.1 s1.2.1 s2.2.2
     s3.1 = (B, true) ∧ s3.2.1.focused = some false) := by
  have hBA : ¬(B = A) := fun h => hAB h.symm
  simp [on_notification, hBA]

/-- Witness for claim C7 with A = 1 and B = 2. -/
theorem C7_focus_stale_exit_witness :
    (let s1 := on_notification 1 ControlNotification.focusEnter none 0
      (0, false) {} []
     let s2 := on_notification 2 ControlNotification.focusEnter none 0
      s1.1 {} s1.2.2
     let s3 := on_notification 1 ControlNotification.focusExit none 0
      s2.1 s1.2.1 s2.2.2
     s3.1 = (2, true) ∧ s3.2.1.focused = some false) :=
  C7_focus_stale_exit 1 2 (by decide) (0, false) {} {} [] none 0

/-- Claim C8.  A texture set delta without offset whose host image and texture
creations succeed, followed by a free delta for the same id, leaves no
descriptor for that id and logs neither an error nor a warning. -/
theorem C8_set_then_free (textures : TexMap) (id : TextureId) (img : Image)
    (fresh : Nat) :
    ∃ t1, apply_texture_set textures id img none true true fresh = some (t1, []) ∧
      alookup (apply_texture_free t1 id).1 id = none ∧
      (apply_texture_free t1 id).2 = [] := by
  refine ⟨ainsert textures id { gd_src_img := img, gd_tex := fresh }, ?_, ?_, ?_⟩
  · simp [apply_texture_set]
  · simp [apply_texture_free, alookup_ainsert_self, alookup_aerase_self]
  · simp [apply_texture_free, alookup_ainsert_self]

/-- Claim C9.  When the frame output requests exactly the currently-live
viewport ids (no duplicates on either side) and no configuration diff demands
recreation, reconciliation succeeds and performs zero viewport spawns and zero
despawns: its event trace has no lifecycle host call. -/
theorem C9_reconcile_idempotent
    (patch : Builder → Builder → Builder × List Cmd × Bool)
    (now : Nat) (vps : VpMap) (sched : Sched)
    (outs : List (ViewportId × ViewportOutput)) (fresh : Nat)
    (hpatch : ∀ a b, (patch a b).2.2 = false)
    (hndO : (outs.map Prod.fst).Nodup)
    (hndV : (vps.map Prod.fst).Nodup)
    (hsame : ∀ id, id ∈ outs.map Prod.fst ↔ id ∈ vps.map Prod.fst) :
    ∃ st, reconcile patch now vps sched outs fresh = some st ∧
      ∀ e ∈ st.events, is_lifecycle_event e = false := by
  obtain ⟨st', hfold, hev, hrem, -, -⟩ :=
    reconcile_fold_no_lifecycle patch now hpatch outs
      { viewports := vps, sched := sched, events := [], repainted := [],
        remaining := vps.map Prod.fst, fresh := fresh }
      hndO (fun id hid => (hsame id).mp hid)
      (fun id hid => (alookup_isSome_iff_mem vps id).mpr hid) hndV
  have hempty : st'.remaining = [] := by
    apply List.eq_nil_iff_forall_not_mem.mpr
    intro x hx
    obtain ⟨hx1, hx2⟩ := (hrem x).mp hx
    exact hx2 ((hsame x).mpr hx1)
  refine ⟨st', ?_, ?_⟩
  · unfold reconcile
    simp only [hfold]
    rw [hempty]
    rfl
  · intro e he
    rcases hev e he with h | h
    · simp at h
    · exact h

/-- Witness for claim C9: re-requesting exactly the root viewport produces no
spawn or despawn. -/
theorem C9_reconcile_idempotent_witness :
    ∃ st, reconcile patch0 3 vpsRoot [] [(ROOT, outR)] 7 = some st ∧
      ∀ e ∈ st.events, is_lifecycle_event e = false :=
  C9_reconcile_idempotent patch0 3 vpsRoot [] [(ROOT, outR)] 7
    (fun _ _ => rfl) (by decide) (by decide) (fun _ => Iff.rfl)

/-- Claim C10.  An id absent from the frame output keeps its repaint-schedule
entry across a whole `handle_output` call (despawning never touches the
schedule; the only removals target ids present in the output), and such a
pending entry keeps the idle early-return check reporting due work at every
later time. -/
theorem C10_schedule_persists
    (patch : Builder → Builder → Builder × List Cmd × Bool)
    (now : Nat) (st : BridgeState) (out : FullOutput) (prims : List Primitive)
    (res : BridgeState × List BridgeEvent)
    (h : handle_output patch now st out prims = some res)
    (id t : Nat) (hid : id ∉ out.viewport_output.map Prod.fst)
    (hsched : alookup st.sched id = some t) :
    alookup res.1.sched id = some t ∧
    ∀ n, t < n → should_repaint res.1.sched n = true := by
  unfold handle_output at h
  cases hr : reconcile patch now st.viewports st.sched out.viewport_output st.fresh with
  | none => simp [hr] at h
  | some rst =>
    simp only [hr] at h
    cases hts : apply_texture_sets st.textures out.textures_set rst.fresh with
    | none => simp [hts] at h
    | some ts =>
      simp only [hts] at h
      cases hp : paint_primitives
          (update_canvas_items st.canvas_items prims.length ts.2.2).pool
          ts.1 prims 0 with
      | none => simp [hp] at h
      | some paintEv =>
        simp only [hp] at h
        cases hq : queue_redraws rst.viewports rst.repainted with
        | none => simp [hq] at h
        | some redrawEv =>
          simp only [hq] at h
          injection h with h1
          have hres : res.1.sched = rst.sched := by
            rw [← h1]
          have hpres : alookup rst.sched id = some t := by
            rw [reconcile_sched_preserve hr hid]
            exact hsched
          constructor
          · rw [hres]
            exact hpres
          · intro n hn
            rw [hres]
            exact should_repaint_of_lookup hpres hn

/-- Witness for claim C10: viewport 1 is live with a due schedule entry but
absent from the output; after the tick its entry survives and keeps the
early-return check true. -/
theorem C10_schedule_persists_witness :
    ∃ res, handle_output patch0 10 bsW10 outW10 [] = some res ∧
      alookup res.1.sched 1 = some 2 ∧ should_repaint res.1.sched 11 = true := by
  have hs : (handle_output patch0 10 bsW10 outW10 []).isSome = true := by decide
  obtain ⟨res, hres⟩ := Option.isSome_iff_exists.mp hs
  obtain ⟨h1, h2⟩ := C10_schedule_persists patch0 10 bsW10 outW10 [] res hres 1 2
    (by decide) (by decide)
  exact ⟨res, hres, h1, h2 11 (by decide)⟩

/-- Claim C4.  Whenever `RawInput` assembly completes, the focus tuple naming a
dead viewport is first rewritten to (ROOT, unfocused), and the resulting
`RawInput.viewport_id` names a viewport present in the live map. -/
theorem C4_raw_input_viewport_valid (vps : VpMap) (focus : ViewportId × Bool)
    (now delta : Nat) (queued : List Nat) (res : RawInput × (ViewportId × Bool))
    (h : assemble_raw_input vps focus now delta queued = some res) :
    (alookup vps res.1.viewport_id).isSome = true ∧
    (alookup vps focus.1 = none →
      res.2 = (ROOT, false) ∧ res.1.viewport_id = ROOT ∧ res.1.focused = false) := by
  unfold assemble_raw_input at h
  cases hr : alookup vps ROOT with
  | none => simp [hr] at h
  | some root =>
    simp only [hr] at h
    by_cases hf : (alookup vps focus.1).isSome = true
    · simp only [hf, if_true] at h
      injection h with h1
      constructor
      · rw [← h1]
        exact hf
      · intro hnone
        rw [hnone] at hf
        simp at hf
    · simp only [if_neg hf] at h
      injection h with h1
      constructor
      · rw [← h1]
        show (alookup vps ROOT).isSome = true
        rw [hr]
        rfl
      · intro _
        rw [← h1]
        exact ⟨rfl, rfl, rfl⟩

/-- Witness for claim C4: a stale focus tuple naming the dead viewport 5 is
rewritten to (ROOT, false) and the assembled input names the live root. -/
theorem C4_raw_input_viewport_valid_witness :
    ∃ res, assemble_raw_input vpsRoot (5, true) 3 1 [] = some res ∧
      (alookup vpsRoot res.1.viewport_id).isSome = true ∧
      res.2 = (ROOT, false) := by
  have hs : (assemble_raw_input vpsRoot (5, true) 3 1 []).isSome = true := by decide
  obtain ⟨res, hres⟩ := Option.isSome_iff_exists.mp hs
  obtain ⟨h1, h2⟩ := C4_raw_input_viewport_valid vpsRoot (5, true) 3 1 [] res hres
  exact ⟨res, hres, h1, (h2 (by decide)).1⟩

/-- Claim C2 counterexample.  On the very first tick the bridge does not
return before frame processing: the tick succeeds, ends no frame, but does
begin a new egui frame, contradicting the claim that no frame is begun on the
first tick. -/
theorem C2_counterexample_first_tick_begins_frame :
    bsInit.started = false ∧
    firstTickRes.isSome = true ∧
    ((firstTickRes.getD (bsInit, [])).2.any is_begin_frame) = true ∧
    ((firstTickRes.getD (bsInit, [])).2.any is_end_frame) = false := by
  decide

/-- Claim C2 as amended.  On the first invocation the bridge marks itself
started and spawns the ROOT viewport with no host window; it ends no frame and
performs no reconciliation, texture or canvas mutation that tick, but it still
assembles `RawInput` and begins a new egui frame before returning. -/
theorem C2_first_tick (patch : Builder → Builder → Builder × List Cmd × Bool)
    (now delta : Nat) (screen_rect : ERect) (st : BridgeState)
    (out : FullOutput) (prims : List Primitive) (queued : List Nat)
    (h : st.started = false) :
    ∃ res : BridgeState × List BridgeEvent,
      on_process patch now delta screen_rect st out prims queued = some res ∧
      res.1.started = true ∧
      (∃ ctx, alookup res.1.viewports ROOT = some ctx ∧ ctx.window = none) ∧
      (∃ raw, res.2 = [BridgeEvent.spawnControl ROOT, BridgeEvent.beginFrame raw]) ∧
      res.1.textures = st.textures ∧
      res.1.canvas_items = st.canvas_items ∧
      res.1.sched = st.sched := by
  have hsp : (spawn_viewport st.viewports ROOT none st.fresh).1 =
      ainsert st.viewports ROOT
        { control := st.fresh, parent_id := none, window := none,
          window_setup := 0, input := {} } := rfl
  have hasm : ∃ ri, assemble_raw_input (spawn_viewport st.viewports ROOT none st.fresh).1
      st.focus now delta queued = some ri := by
    unfold assemble_raw_input
    simp only [hsp, alookup_ainsert_self]
    by_cases hf : (alookup (ainsert st.viewports ROOT
        { control := st.fresh, parent_id := none, window := none,
          window_setup := 0, input := {} }) st.focus.1).isSome = true
    · simp only [hf, if_true]
      exact ⟨_, rfl⟩
    · simp only [if_neg hf]
      exact ⟨_, rfl⟩
  obtain ⟨ri, hri⟩ := hasm
  unfold on_process
  rw [if_pos h]
  simp only [hri]
  refine ⟨_, rfl, rfl, ?_, ⟨ri.1, rfl⟩, rfl, rfl, rfl⟩
  refine ⟨{ control := st.fresh, parent_id := none, window := none,
            window_setup := 0, input := {} }, ?_, rfl⟩
  show alookup (spawn_viewport st.viewports ROOT none st.fresh).1 ROOT = some _
  rw [hsp]
  exact alookup_ainsert_self _ _ _

/-- Witness for claim C2 as amended, from a fresh bridge state. -/
theorem C2_first_tick_witness :
    ∃ res, on_process patch0 5 1 0 bsInit outEmpty [] [] = some res ∧
      res.1.started = true ∧
      (∃ raw, res.2 = [BridgeEvent.spawnControl ROOT, BridgeEvent.beginFrame raw]) := by
  obtain ⟨res, h1, h2, h3, h4, h5, h6, h7⟩ :=
    C2_first_tick patch0 5 1 0 bsInit outEmpty [] [] rfl
  exact ⟨res, h1, h2, h4⟩

/-- Claim C3 counterexample.  A started bridge whose only schedule entry has
deadline exactly equal to the current time satisfies the due-by-≤ criterion of
the claim, yet the tick is the idle no-op: state unchanged, empty trace, so
no frame end happens (the code compares with strict less-than). -/
theorem C3_counterexample_due_at_now :
    bsDueAtNow.started = true ∧
    (bsDueAtNow.sched.any fun e => decide (e.2 ≤ 5)) = true ∧
    on_process patch0 5 1 0 bsDueAtNow outEmpty [] [] = some (bsDueAtNow, []) := by
  decide

/-- Claim C3 as amended.  For every tick after the first, `on_process`
proceeds to frame end and reconciliation if and only if some schedule entry
has a deadline strictly earlier than now; when no entry is strictly due the
tick returns `(st, [])`: state untouched and no texture, mesh or host-tree
event. -/
theorem C3_idle_strict (patch : Builder → Builder → Builder × List Cmd × Bool)
    (now delta : Nat) (screen_rect : ERect) (st : BridgeState)
    (out : FullOutput) (prims : List Primitive) (queued : List Nat)
    (h : st.started = true) :
    (should_repaint st.sched now = false →
      on_process patch now delta screen_rect st out prims queued = some (st, [])) ∧
    (∀ res, on_process patch now delta screen_rect st out prims queued = some res →
      (res.2.any is_end_frame = true ↔ should_repaint st.sched now = true)) := by
  have hcond : ¬(st.started = false) := by
    rw [h]
    simp
  constructor
  · intro hsr
    unfold on_process
    rw [if_neg hcond, if_pos hsr]
  · intro res hres
    unfold on_process at hres
    rw [if_neg hcond] at hres
    by_cases hsr : should_repaint st.sched now = false
    · rw [if_pos hsr] at hres
      injection hres with h1
      rw [← h1]
      simp [hsr]
    · rw [if_neg hsr] at hres
      have hsr' : should_repaint st.sched now = true := by
        revert hsr
        cases should_repaint st.sched now <;> simp
      cases hho : handle_output patch now (screen_refresh screen_rect st).1 out prims with
      | none => simp [hho] at hres
      | some ho =>
        simp only [hho] at hres
        cases hasm : assemble_raw_input ho.1.viewports ho.1.focus now delta queued with
        | none => simp [hasm] at hres
        | some ri =>
          simp only [hasm] at hres
          injection hres with h1
          rw [← h1]
          simp [hsr', is_end_frame, List.any_append, List.any_cons]

/-- Witness for claim C3 as amended: a started bridge with an empty schedule
is a no-op tick. -/
theorem C3_idle_strict_witness :
    on_process patch0 7 1 0 { bsInit with started := true } outEmpty [] [] =
      some ({ bsInit with started := true }, []) :=
  (C3_idle_strict patch0 7 1 0 { bsInit with started := true } outEmpty [] []
    rfl).1 (by decide)

/-- Claim C5.  After every successful `handle_output`, the canvas-item pool
holds exactly one handle per tessellated primitive: growing creates exactly
the difference, shrinking frees exactly the trailing excess, every old handle
either survives or is freed, and the created and freed handles appear as host
create and free calls in the trace. -/
theorem C5_canvas_pool_exact (patch : Builder → Builder → Builder × List Cmd × Bool)
    (now : Nat) (st : BridgeState) (out : FullOutput) (prims : List Primitive)
    (res : BridgeState × List BridgeEvent)
    (h : handle_output patch now st out prims = some res) :
    ∃ f,
      res.1.canvas_items = (update_canvas_items st.canvas_items prims.length f).pool ∧
      res.1.canvas_items.length = prims.length ∧
      (st.canvas_items.length ≤ prims.length →
        (update_canvas_items st.canvas_items prims.length f).created.length =
          prims.length - st.canvas_items.length ∧
        (update_canvas_items st.canvas_items prims.length f).freed = [] ∧
        res.1.canvas_items =
          st.canvas_items ++
            (update_canvas_items st.canvas_items prims.length f).created) ∧
      (prims.length ≤ st.canvas_items.length →
        (update_canvas_items st.canvas_items prims.length f).created = [] ∧
        (update_canvas_items st.canvas_items prims.length f).freed =
          st.canvas_items.drop prims.length ∧
        res.1.canvas_items = st.canvas_items.take prims.length) ∧
      (∀ r ∈ st.canvas_items, r ∈ res.1.canvas_items ∨
        r ∈ (update_canvas_items st.canvas_items prims.length f).freed) ∧
      (∀ r ∈ (update_canvas_items st.canvas_items prims.length f).created,
        BridgeEvent.createCanvasItem r ∈ res.2) ∧
      (∀ r ∈ (update_canvas_items st.canvas_items prims.length f).freed,
        BridgeEvent.freeCanvasItem r ∈ res.2) := by
  unfold handle_output at h
  cases hr : reconcile patch now st.viewports st.sched out.viewport_output st.fresh with
  | none => simp [hr] at h
  | some rst =>
    simp only [hr] at h
    cases hts : apply_texture_sets st.textures out.textures_set rst.fresh with
    | none => simp [hts] at h
    | some ts =>
      simp only [hts] at h
      cases hp : paint_primitives
          (update_canvas_items st.canvas_items prims.length ts.2.2).pool
          ts.1 prims 0 with
      | none => simp [hp] at h
      | some paintEv =>
        simp only [hp] at h
        cases hq : queue_redraws rst.viewports rst.repainted with
        | none => simp [hq] at h
        | some redrawEv =>
          simp only [hq] at h
          injection h with h1
          subst h1
          refine ⟨ts.2.2, rfl, uci_pool_length _ _ _, ?_, ?_, ?_, ?_, ?_⟩
          · intro hle
            obtain ⟨hc, hf, hp2⟩ := uci_grow st.canvas_items prims.length ts.2.2 hle
            exact ⟨hc, hf, hp2⟩
          · intro hge
            obtain ⟨hc, hf, hp2⟩ := uci_shrink st.canvas_items prims.length ts.2.2 hge
            exact ⟨hc, hf, hp2⟩
          · intro r hr2
            exact uci_partition st.canvas_items prims.length ts.2.2 hr2
          · intro r hr2
            have hm := List.mem_map_of_mem BridgeEvent.createCanvasItem hr2
            simp only [List.mem_append]
            tauto
          · intro r hr2
            have hm := List.mem_map_of_mem BridgeEvent.freeCanvasItem hr2
            simp only [List.mem_append]
            tauto

/-- Witness for claim C5: a frame with one primitive and an empty prior pool
ends with a pool of exactly one handle. -/
theorem C5_canvas_pool_exact_witness :
    ∃ res, handle_output patch0 9 bsW5 outEmpty [Primitive.mesh 1 true] = some res ∧
      res.1.canvas_items.length = [Primitive.mesh 1 true].length := by
  have hs : (handle_output patch0 9 bsW5 outEmpty [Primitive.mesh 1 true]).isSome
      = true := by decide
  obtain ⟨res, hres⟩ := Option.isSome_iff_exists.mp hs
  obtain ⟨f, h1, h2, h3⟩ :=
    C5_canvas_pool_exact patch0 9 bsW5 outEmpty [Primitive.mesh 1 true] res hres
  exact ⟨res, hres, h2⟩

end GdextEgui
